import Mathlib

/-!
Shallow embedding of `src/methods/dlibml/src/ALLKNN.cpp`.

The program defines a bounded Euclidean distance functor `euclidean_distance`
(lines 21-46), stages an Armadillo matrix into a vector of dlib column samples
(lines 61-73), and brackets the external `find_k_nearest_neighbors` call with
mlpack timer start/stop calls (lines 75-79).

Modelling conventions:
* a dlib column vector (`matrix<double, 0, 1>`) is a `List ℝ`;
* a C++ `double` that may hold `std::numeric_limits<double>::infinity()` is an
  `EReal` (a real number or a signed infinity; NaN has no counterpart in the
  real-number idealisation);
* the Armadillo matrix `arma::mat` is a dimension pair with an entry function;
* the mutable staging loop is explicit state passing over `StageState`;
* a C++ exception raised by the external search is an `Except.error`, and
  statement sequencing that an exception aborts is the interpreter `runStmts`.
-/

/-- The dlib expression `a - b` on two column vectors: componentwise
difference. -/
def matSub (a b : List ℝ) : List ℝ :=
  List.zipWith (fun x y => x - y) a b

/-- dlib `length_squared v`: the sum of the squares of the entries of `v`. -/
def length_squared (v : List ℝ) : ℝ :=
  (v.map (fun x => x * x)).sum

/-- The metric functor of ALLKNN.cpp lines 21-46: it carries the two `const
double` fields `lower` and `upper`. -/
structure euclidean_distance where
  lower : EReal
  upper : EReal

/-- The default constructor (lines 23-26): `lower = 0`,
`upper = std::numeric_limits<double>::infinity()`. -/
def euclidean_distance.default : euclidean_distance :=
  { lower := 0, upper := ⊤ }

/-- `operator()` of the functor (lines 36-45): `len = sqrt(length_squared(a-b))`;
if `lower <= len && len <= upper` return `len`, else return positive
infinity. -/
noncomputable def euclidean_distance.eval
    (d : euclidean_distance) (a b : List ℝ) : EReal :=
  let len : ℝ := Real.sqrt (length_squared (matSub a b))
  if d.lower ≤ (len : EReal) ∧ (len : EReal) ≤ d.upper then (len : EReal)
  else ⊤

/-- The mathematical Euclidean distance of the spec:
`sqrt (sum_j (a[j] - b[j])^2)`. Stated independently of the dlib helpers so
that agreement with the code path is a theorem, not a definition. -/
noncomputable def euclideanDistanceSpec (a b : List ℝ) : ℝ :=
  Real.sqrt ((List.zipWith (fun x y => (x - y) * (x - y)) a b).sum)

/-- The loaded Armadillo dense matrix `arma::mat referenceData`: row and column
counts with an entry function (`referenceData(j, i)` is `entry j i`). -/
structure Mat where
  n_rows : ℕ
  n_cols : ℕ
  entry : ℕ → ℕ → ℝ

/-- The inner staging loop (lines 69-70): for each `j < n_rows`, overwrite
`m(j)` with `referenceData(j, i)`. -/
def fillColumn (M : Mat) (i : ℕ) (m : List ℝ) : List ℝ :=
  (List.range M.n_rows).foldl (fun buf j => buf.set j (M.entry j i)) m

/-- The mutable state the staging loop touches: the loaded matrix, the growing
`samples_train` vector, and the reused scratch buffer `m`. -/
structure StageState where
  referenceData : Mat
  samples_train : List (List ℝ)
  m : List ℝ

/-- One iteration of the outer column loop (lines 67-73): refill the scratch
buffer from column `i`, then `push_back` a copy of it. -/
def stageStep (st : StageState) (i : ℕ) : StageState :=
  { st with
      m := fillColumn st.referenceData i st.m,
      samples_train :=
        st.samples_train ++ [fillColumn st.referenceData i st.m] }

/-- The whole outer loop over `i < referenceData.n_cols`. -/
def stageLoop (st : StageState) : StageState :=
  (List.range st.referenceData.n_cols).foldl stageStep st

/-- The state right before the loop: empty `samples_train` and the buffer after
`m.set_size(referenceData.n_rows)` (its `n_rows` entries are uninitialised in
the C++ source; the model fills them with zeros, and the staging theorems show
every entry is overwritten before it is read). -/
def initState (M : Mat) : StageState :=
  { referenceData := M
    samples_train := []
    m := List.replicate M.n_rows 0 }

/-- The sample collection the program hands to the external search. -/
def samples_train (M : Mat) : List (List ℝ) :=
  (stageLoop (initState M)).samples_train

/-- A timer event recorded by the mlpack timing sink. -/
inductive TimerEvent where
  | start (label : String)
  | stop (label : String)
deriving DecidableEq

/-- The statements of the driver tail (lines 75-79), abstracted: timer
operations always succeed; the external search call may raise. -/
inductive Stmt where
  | timerStart (label : String)
  | timerStop (label : String)
  | externalSearch
deriving DecidableEq

/-- Sequential execution with C++ exception semantics: each timer statement
appends its event to the trace; if the external search raises, the remaining
statements (including any pending `Timer::Stop`) are skipped and the error
propagates. `searchOutcome` is the black-box outcome of the external call. -/
def runStmts (searchOutcome : Except String Unit) :
    List Stmt → List TimerEvent → List TimerEvent × Except String Unit
  | [], tr => (tr, Except.ok ())
  | Stmt.timerStart n :: rest, tr =>
      runStmts searchOutcome rest (tr ++ [TimerEvent.start n])
  | Stmt.timerStop n :: rest, tr =>
      runStmts searchOutcome rest (tr ++ [TimerEvent.stop n])
  | Stmt.externalSearch :: rest, tr =>
      match searchOutcome with
      | Except.error e => (tr, Except.error e)
      | Except.ok _ => runStmts searchOutcome rest tr

/-- Lines 75-79 of the source, verbatim: start the `Nearest_Neighbors` timer,
call `find_k_nearest_neighbors`, stop the timer. -/
def driverStmts : List Stmt :=
  [Stmt.timerStart "Nearest_Neighbors",
   Stmt.externalSearch,
   Stmt.timerStop "Nearest_Neighbors"]

/-- Run the driver tail from an empty trace. -/
def runDriver (searchOutcome : Except String Unit) :
    List TimerEvent × Except String Unit :=
  runStmts searchOutcome driverStmts []

/-- The C++ conversion `size_t k = CLI::GetParam<int>("k")`: a signed value is
reduced modulo `2^64` into an unsigned 64-bit count. -/
def toSizeT (n : ℤ) : ℕ :=
  (n % 2 ^ 64).toNat

/-- Everything `mlpackMain` passes to `find_k_nearest_neighbors` (line 77). -/
structure SearchCall where
  samples : List (List ℝ)
  metric : euclidean_distance
  k : ℕ

/-- `mlpackMain` (lines 47-80), as a function of its CLI inputs and of the
external loader: read the parameters, load the matrix, stage the samples, and
assemble the external search invocation with a default-constructed metric. -/
def mlpackMain (referenceFileParam : String) (kParam : ℤ)
    (load : String → Mat) : SearchCall :=
  let referenceFile : String := referenceFileParam
  let k : ℕ := toSizeT kParam
  let referenceData : Mat := load referenceFile
  { samples := samples_train referenceData
    metric := euclidean_distance.default
    k := k }

/-! ## Helper lemmas -/

/-- The code path `length_squared (a - b)` computes the spec's sum of squared
differences. -/
theorem length_squared_matSub (a b : List ℝ) :
    length_squared (matSub a b) =
      (List.zipWith (fun x y => (x - y) * (x - y)) a b).sum := by
  rw [length_squared, matSub, List.map_zipWith]

/-- `length_squared` is a sum of squares, hence nonnegative. -/
theorem length_squared_nonneg (v : List ℝ) : 0 ≤ length_squared v := by
  refine List.sum_nonneg ?_
  intro x hx
  rcases List.mem_map.mp hx with ⟨y, _, rfl⟩
  exact mul_self_nonneg y

/-- Swapping the two vectors does not change the squared length of the
difference. -/
theorem length_squared_matSub_comm (a b : List ℝ) :
    length_squared (matSub a b) = length_squared (matSub b a) := by
  rw [length_squared_matSub, length_squared_matSub,
    List.zipWith_comm_of_comm]
  intro x y
  ring

/-- The difference of a vector with itself has squared length zero. -/
theorem length_squared_matSub_self (a : List ℝ) :
    length_squared (matSub a a) = 0 := by
  induction a with
  | nil => rfl
  | cons x xs ih =>
      have h : matSub (x :: xs) (x :: xs) = (x - x) :: matSub xs xs := rfl
      rw [h, length_squared, List.map_cons, List.sum_cons, sub_self,
        mul_zero, zero_add]
      exact ih

/-- The code's gated value agrees with the spec's Euclidean distance. -/
theorem sqrt_length_squared_eq_spec (a b : List ℝ) :
    Real.sqrt (length_squared (matSub a b)) = euclideanDistanceSpec a b := by
  rw [euclideanDistanceSpec, length_squared_matSub]

/-- Setting indices `0, …, n-1` of a buffer to `f 0, …, f (n-1)` in order
rewrites its first `n` entries and keeps the rest. -/
theorem foldl_set_range (f : ℕ → ℝ) :
    ∀ (n : ℕ) (m : List ℝ), n ≤ m.length →
      (List.range n).foldl (fun buf j => buf.set j (f j)) m =
        (List.range n).map f ++ m.drop n := by
  intro n
  induction n with
  | zero => simp
  | succ n ih =>
      intro m hm
      have hn : n < m.length := Nat.lt_of_succ_le hm
      rw [List.range_succ, List.foldl_append, ih m (Nat.le_of_lt hn)]
      have hlen : ((List.range n).map f).length ≤ n := by simp
      rw [List.foldl_cons, List.foldl_nil,
        List.set_append_right _ _ hlen]
      simp only [List.length_map, List.length_range, Nat.sub_self]
      rw [List.drop_eq_getElem_cons hn, List.set_cons_zero,
        List.map_append]
      simp

/-- Filling the scratch buffer from column `i` yields exactly that column,
provided the buffer has `n_rows` entries. -/
theorem fillColumn_eq (M : Mat) (i : ℕ) (m : List ℝ)
    (hm : m.length = M.n_rows) :
    fillColumn M i m = (List.range M.n_rows).map (fun j => M.entry j i) := by
  rw [fillColumn, foldl_set_range _ _ _ (le_of_eq hm.symm)]
  rw [← hm, List.drop_length, List.append_nil]

/-- The staging loop never writes to the loaded matrix: one step. -/
theorem stageStep_referenceData (st : StageState) (i : ℕ) :
    (stageStep st i).referenceData = st.referenceData := rfl

/-- The staging loop never writes to the loaded matrix: any iteration list. -/
theorem foldl_stageStep_referenceData (is : List ℕ) :
    ∀ st : StageState,
      (is.foldl stageStep st).referenceData = st.referenceData := by
  induction is with
  | nil => intro st; rfl
  | cons i is ih =>
      intro st
      rw [List.foldl_cons, ih]
      exact stageStep_referenceData st i

/-- Invariant of the outer staging loop: with a correctly sized scratch buffer,
iterating over columns `is` appends exactly the corresponding matrix columns
to `samples_train`. -/
theorem foldl_stageStep_samples (is : List ℕ) :
    ∀ st : StageState, st.m.length = st.referenceData.n_rows →
      (is.foldl stageStep st).samples_train =
        st.samples_train ++
          is.map (fun i =>
            (List.range st.referenceData.n_rows).map
              (fun j => st.referenceData.entry j i)) := by
  induction is with
  | nil => intro st _; simp
  | cons i is ih =>
      intro st hm
      rw [List.foldl_cons]
      have hfill : fillColumn st.referenceData i st.m =
          (List.range st.referenceData.n_rows).map
            (fun j => st.referenceData.entry j i) :=
        fillColumn_eq _ _ _ hm
      have hm2 : (stageStep st i).m.length =
          (stageStep st i).referenceData.n_rows := by
        show (fillColumn st.referenceData i st.m).length = _
        rw [hfill]
        simp [stageStep]
      rw [ih (stageStep st i) hm2]
      show (st.samples_train ++ [fillColumn st.referenceData i st.m]) ++ _ = _
      rw [hfill]
      simp [stageStep]

/-- Closed form of the staged sample collection: one sample per matrix column,
in column order. -/
theorem samples_train_eq (M : Mat) :
    samples_train M =
      (List.range M.n_cols).map (fun i =>
        (List.range M.n_rows).map (fun j => M.entry j i)) := by
  rw [samples_train, stageLoop]
  have h := foldl_stageStep_samples (List.range M.n_cols) (initState M)
    (by simp [initState])
  simpa [initState] using h

/-- With the default bounds, the gate always passes and the metric returns the
spec's Euclidean distance. -/
theorem default_eval_eq (a b : List ℝ) :
    euclidean_distance.default.eval a b =
      ((euclideanDistanceSpec a b : ℝ) : EReal) := by
  rw [euclidean_distance.eval]
  simp only [euclidean_distance.default]
  rw [if_pos]
  · rw [sqrt_length_squared_eq_spec]
  · constructor
    · rw [← EReal.coe_zero, EReal.coe_le_coe_iff]
      exact Real.sqrt_nonneg _
    · exact le_top

/-! ## Claim theorems -/

/-- Claim C1: for equal-length vectors and bounds with 0 <= lower <= upper,
the metric returns the true Euclidean distance when it lies within
[lower, upper] and exactly positive infinity otherwise, and its result is
never negative (NaN has no counterpart in the real-number model). -/
theorem metric_bounded_correct (lower upper : EReal) (h0 : 0 ≤ lower)
    (hlu : lower ≤ upper) (a b : List ℝ) (hlen : a.length = b.length) :
    ((lower ≤ ((euclideanDistanceSpec a b : ℝ) : EReal) ∧
        ((euclideanDistanceSpec a b : ℝ) : EReal) ≤ upper) →
      (euclidean_distance.mk lower upper).eval a b =
        ((euclideanDistanceSpec a b : ℝ) : EReal)) ∧
    ((¬ (lower ≤ ((euclideanDistanceSpec a b : ℝ) : EReal) ∧
        ((euclideanDistanceSpec a b : ℝ) : EReal) ≤ upper)) →
      (euclidean_distance.mk lower upper).eval a b = ⊤) ∧
    0 ≤ (euclidean_distance.mk lower upper).eval a b := by
  have hd := sqrt_length_squared_eq_spec a b
  simp only [euclidean_distance.eval, hd]
  refine ⟨?_, ?_, ?_⟩
  · intro h
    rw [if_pos h]
  · intro h
    rw [if_neg h]
  · split_ifs with h
    · exact EReal.coe_nonneg.mpr (Real.sqrt_nonneg _)
    · exact le_top

/-- Witness for C1 at lower = 0, upper = infinity, a = [1], b = [0]. -/
theorem metric_bounded_correct_witness :
    (((0 : EReal) ≤ ((euclideanDistanceSpec [1] [0] : ℝ) : EReal) ∧
        ((euclideanDistanceSpec [1] [0] : ℝ) : EReal) ≤ (⊤ : EReal)) →
      (euclidean_distance.mk 0 ⊤).eval [1] [0] =
        ((euclideanDistanceSpec [1] [0] : ℝ) : EReal)) ∧
    ((¬ ((0 : EReal) ≤ ((euclideanDistanceSpec [1] [0] : ℝ) : EReal) ∧
        ((euclideanDistanceSpec [1] [0] : ℝ) : EReal) ≤ (⊤ : EReal))) →
      (euclidean_distance.mk 0 ⊤).eval [1] [0] = ⊤) ∧
    0 ≤ (euclidean_distance.mk 0 ⊤).eval [1] [0] :=
  metric_bounded_correct 0 ⊤ le_rfl le_top [1] [0] rfl

/-- Claim C3: with the default bounds (0, +infinity) the metric equals the
unconstrained Euclidean distance and never returns infinity on (finite)
inputs. -/
theorem metric_default_unbounded (a b : List ℝ)
    (hlen : a.length = b.length) :
    euclidean_distance.default.eval a b =
      ((euclideanDistanceSpec a b : ℝ) : EReal) ∧
    euclidean_distance.default.eval a b ≠ ⊤ := by
  refine ⟨default_eval_eq a b, ?_⟩
  rw [default_eval_eq a b]
  exact EReal.coe_ne_top _

/-- Witness for C3 at a = [0], b = [0]. -/
theorem metric_default_unbounded_witness :
    euclidean_distance.default.eval [0] [0] =
      ((euclideanDistanceSpec [0] [0] : ℝ) : EReal) ∧
    euclidean_distance.default.eval [0] [0] ≠ ⊤ :=
  metric_default_unbounded [0] [0] rfl

/-- Claim C4 counterexample: with bounds (1, 2) (which satisfy
0 <= lower <= upper) the metric on two zero-length vectors returns positive
infinity, not the distance 0 that the claim asserts. -/
theorem metric_empty_vectors_cex :
    ¬ ((euclidean_distance.mk ((1 : ℝ) : EReal) ((2 : ℝ) : EReal)).eval []
        [] = 0) := by
  have h0 : Real.sqrt (length_squared (matSub ([] : List ℝ) [])) = 0 := by
    simp [matSub, length_squared]
  have h : (euclidean_distance.mk ((1 : ℝ) : EReal)
      ((2 : ℝ) : EReal)).eval [] [] = ⊤ := by
    simp only [euclidean_distance.eval, h0]
    rw [if_neg]
    intro hcon
    have h1 := EReal.coe_le_coe_iff.mp hcon.1
    norm_num at h1
  rw [h]
  exact EReal.top_ne_zero

/-- Claim C4, amended: the metric is total (defined for equal-length vectors
of any length, zero included); for bounds with 0 <= lower <= upper, two
zero-length vectors yield the distance 0 exactly when lower <= 0 (that is,
lower = 0, as with the default bounds), and positive infinity when
lower > 0. -/
theorem metric_empty_vectors_amended (d : euclidean_distance)
    (h0 : 0 ≤ d.lower) (hlu : d.lower ≤ d.upper) :
    (d.lower ≤ 0 → d.eval [] [] = 0) ∧
    (¬ d.lower ≤ 0 → d.eval [] [] = ⊤) := by
  have hup : (0 : EReal) ≤ d.upper := le_trans h0 hlu
  have hs : Real.sqrt (length_squared (matSub ([] : List ℝ) [])) = 0 := by
    simp [matSub, length_squared]
  constructor
  · intro hl
    simp only [euclidean_distance.eval, hs]
    rw [if_pos]
    · exact EReal.coe_zero
    · refine ⟨?_, ?_⟩
      · rw [EReal.coe_zero]
        exact hl
      · rw [EReal.coe_zero]
        exact hup
  · intro hl
    simp only [euclidean_distance.eval, hs]
    rw [if_neg]
    intro hcon
    refine hl ?_
    have := hcon.1
    rw [EReal.coe_zero] at this
    exact this

/-- Witness for the amended C4 at the default bounds. -/
theorem metric_empty_vectors_amended_witness :
    (euclidean_distance.default.lower ≤ 0 →
      euclidean_distance.default.eval [] [] = 0) ∧
    (¬ euclidean_distance.default.lower ≤ 0 →
      euclidean_distance.default.eval [] [] = ⊤) :=
  metric_empty_vectors_amended euclidean_distance.default le_rfl le_top

/-- Claim C6: the metric is symmetric in its two vector arguments. -/
theorem metric_symmetric (d : euclidean_distance) (hlu : d.lower ≤ d.upper)
    (a b : List ℝ) (hlen : a.length = b.length) :
    d.eval a b = d.eval b a := by
  simp only [euclidean_distance.eval, length_squared_matSub_comm a b]

/-- Witness for C6 at the default bounds, a = [1], b = [0]. -/
theorem metric_symmetric_witness :
    euclidean_distance.default.eval [1] [0] =
      euclidean_distance.default.eval [0] [1] :=
  metric_symmetric euclidean_distance.default le_top [1] [0] rfl

/-- Claim C7: whenever 0 lies within [lower, upper], the metric of a vector
with itself is 0. -/
theorem metric_identity (d : euclidean_distance) (hl : d.lower ≤ 0)
    (hu : 0 ≤ d.upper) (a : List ℝ) :
    d.eval a a = 0 := by
  have hs : Real.sqrt (length_squared (matSub a a)) = 0 := by
    rw [length_squared_matSub_self, Real.sqrt_zero]
  simp only [euclidean_distance.eval, hs]
  rw [if_pos]
  · exact EReal.coe_zero
  · refine ⟨?_, ?_⟩
    · rw [EReal.coe_zero]
      exact hl
    · rw [EReal.coe_zero]
      exact hu

/-- Witness for C7 at the default bounds and a = [1, 2]. -/
theorem metric_identity_witness :
    euclidean_distance.default.eval [1, 2] [1, 2] = 0 :=
  metric_identity euclidean_distance.default le_rfl le_top [1, 2]

/-- Claim C2: staging a loaded R x C matrix produces exactly C samples, each
of length R, in column order, with element j of sample i equal to the matrix
entry at row j, column i. -/
theorem stager_correct (M : Mat) (i j : ℕ) (hi : i < M.n_cols)
    (hj : j < M.n_rows) :
    (samples_train M).length = M.n_cols ∧
    ∃ s, (samples_train M)[i]? = some s ∧ s.length = M.n_rows ∧
      s[j]? = some (M.entry j i) := by
  rw [samples_train_eq]
  refine ⟨by simp,
    ⟨(List.range M.n_rows).map (fun j2 => M.entry j2 i), ?_, by simp, ?_⟩⟩
  · rw [List.getElem?_map, List.getElem?_range hi]
    rfl
  · rw [List.getElem?_map, List.getElem?_range hj]
    rfl

/-- Witness for C2 at the 2 x 3 matrix [[0,1,2],[0,1,2]], sample 1,
element 0. -/
theorem stager_correct_witness :
    (samples_train (Mat.mk 2 3 (fun _ i => (i : ℝ)))).length = 3 ∧
    ∃ s, (samples_train (Mat.mk 2 3 (fun _ i => (i : ℝ))))[1]? = some s ∧
      s.length = 2 ∧ s[0]? = some ((1 : ℕ) : ℝ) :=
  stager_correct (Mat.mk 2 3 (fun _ i => (i : ℝ))) 1 0 (by decide)
    (by decide)

/-- Claim C5 counterexample: when the external search fails, the driver's
trace records the timer start but no timer stop, and the failure propagates;
the stop is not executed on the failure path, so the measurement is leaked on
early exit, contrary to the claim. -/
theorem timer_stop_skipped_cex :
    TimerEvent.stop "Nearest_Neighbors" ∉
      (runDriver (Except.error "search failed")).1 ∧
    (runDriver (Except.error "search failed")).2 =
      Except.error "search failed" :=
  ⟨by decide, rfl⟩

/-- Claim C5, amended: the timer start precedes the external search in all
outcomes and the search outcome propagates unchanged, but the timer stop is
recorded only when the external search succeeds; when it fails, the trace
ends at the start event and the stop is skipped. -/
theorem timer_bracketing (o : Except String Unit) :
    (runDriver o).2 = o ∧
    (runDriver o).1 =
      TimerEvent.start "Nearest_Neighbors" ::
        (match o with
         | Except.ok _ => [TimerEvent.stop "Nearest_Neighbors"]
         | Except.error _ => []) := by
  cases o with
  | ok u =>
      cases u
      exact ⟨rfl, rfl⟩
  | error e => exact ⟨rfl, rfl⟩

/-- Claim C8: the staging loop never mutates the loaded matrix - its
dimensions and every entry are unchanged when staging completes. -/
theorem staging_pure (M : Mat) :
    (stageLoop (initState M)).referenceData.n_rows = M.n_rows ∧
    (stageLoop (initState M)).referenceData.n_cols = M.n_cols ∧
    ∀ j i, (stageLoop (initState M)).referenceData.entry j i =
      M.entry j i := by
  have h : (stageLoop (initState M)).referenceData = M := by
    rw [stageLoop]
    exact foldl_stageStep_referenceData _ _
  rw [h]
  exact ⟨rfl, rfl, fun _ _ => rfl⟩

/-- Claim C9: on every run, whatever the CLI parameters and the loaded data,
the driver hands the external search a default-constructed metric with
lower = 0 and upper = +infinity, so the search is driven by plain unbounded
Euclidean distance. -/
theorem driver_always_default_metric (file : String) (kp : ℤ)
    (load : String → Mat) :
    (mlpackMain file kp load).metric = euclidean_distance.default ∧
    (mlpackMain file kp load).metric.lower = 0 ∧
    (mlpackMain file kp load).metric.upper = ⊤ ∧
    ∀ a b : List ℝ,
      (mlpackMain file kp load).metric.eval a b =
        ((euclideanDistanceSpec a b : ℝ) : EReal) :=
  ⟨rfl, rfl, rfl, fun a b => default_eval_eq a b⟩

/-- Claim C10: a negative CLI value n for k is not rejected; the
signed-to-unsigned narrowing turns it into n mod 2^64, which is at least 2^63
for any 32-bit signed n, and that count is passed to the external search. -/
theorem negative_k_wraps (file : String) (load : String → Mat) (n : ℤ)
    (hneg : n < 0) (hrange : -(2 ^ 31) ≤ n) :
    ((mlpackMain file n load).k : ℤ) = n % 2 ^ 64 ∧
    2 ^ 63 ≤ (mlpackMain file n load).k := by
  have hk : (mlpackMain file n load).k = (n % 2 ^ 64).toNat := rfl
  rw [hk]
  have h64 : (2 : ℤ) ^ 64 = 18446744073709551616 := by norm_num
  have h63 : (2 : ℕ) ^ 63 = 9223372036854775808 := by norm_num
  rw [h64, h63]
  rw [show -(2 : ℤ) ^ 31 = -2147483648 by norm_num] at hrange
  omega

/-- Witness for C10 at n = -1 (and a trivial loader). -/
theorem negative_k_wraps_witness :
    ((mlpackMain "" (-1) (fun _ => Mat.mk 0 0 (fun _ _ => 0))).k : ℤ) =
      (-1) % 2 ^ 64 ∧
    2 ^ 63 ≤ (mlpackMain "" (-1) (fun _ => Mat.mk 0 0 (fun _ _ => 0))).k :=
  negative_k_wraps "" (fun _ => Mat.mk 0 0 (fun _ _ => 0)) (-1) (by decide)
    (by decide)
